import Mathlib

/-!
Verification of the collectd metrics-pipeline sources: the label store of
src/gcp_metadata.c and the threshold registry of utils_threshold.c, together
with the converter and write-queue behavior exercised by
src/daemon/metrics_list_test.c.

C pointers that the code assumes valid are embedded as plain values; a C
string pointer that may be NULL is embedded as an Option String.  Operations
whose C execution can reach undefined behavior (strlen or strcpy on a NULL
value pointer) return an Option result, with none marking the undefined
execution; allocation is modelled as always succeeding.
-/

namespace Collectd

/-! ### Label store of src/gcp_metadata.c

The store is a singly linked list of key/value nodes hanging off a
list_container_s header; `value_p` may be NULL (key registered, value
absent).  Nodes are only ever produced by create_list_node, so every node
in the model carries a non-NULL key. -/

structure tmp_list_node where
  key_p : String
  value_p : Option String
deriving Repr, DecidableEq

/-- Embedding of create_list_node: NULL key returns NULL; a NULL value
pointer reaches strlen(NULL), undefined behavior (outer none); allocation
is modelled as succeeding.  The inner Option is the returned pointer. -/
def create_list_node (key_p value_p : Option String) :
    Option (Option tmp_list_node) :=
  match key_p with
  | none => some none
  | some k =>
    match value_p with
    | none => none
    | some v => some (some { key_p := k, value_p := some v })

/-- The while-loop of add_label over the nodes after the header: find the
key, fill its value when absent (strcpy of a NULL value_p is undefined
behavior, modelled as none), otherwise fall off the end and append the node
built by create_list_node (whose NULL return makes add_label report 0). -/
def add_label_walk (key : String) (value_p : Option String) :
    List tmp_list_node → Option (Int × List tmp_list_node)
  | [] =>
    match create_list_node (some key) value_p with
    | none => none
    | some none => some (0, [])
    | some (some node) => some (0, [node])
  | n :: rest =>
    if n.key_p = key then
      match n.value_p with
      | some _ => some (0, n :: rest)
      | none =>
        match value_p with
        | none => none
        | some v => some (0, { n with value_p := some v } :: rest)
    else
      match add_label_walk key value_p rest with
      | none => none
      | some (r, rest2) => some (r, n :: rest2)

/-- Embedding of add_label.  A NULL key returns 1.  When the header's next
pointer is NULL the code assigns the still-NULL local node_p to it, leaving
the store empty; otherwise it walks the list as in add_label_walk. -/
def add_label (key_p value_p : Option String)
    (list_head : List tmp_list_node) : Option (Int × List tmp_list_node) :=
  match key_p with
  | none => some (1, list_head)
  | some key =>
    match list_head with
    | [] => some (0, [])
    | n :: rest => add_label_walk key value_p (n :: rest)

/-! ### Threshold registry of utils_threshold.c

The AVL trees of the code (threshold_tree and the label store inside an
identity) are string-keyed maps created with strcmp; they are embedded as
association lists with unique keys and a first-match lookup. -/

/-- Embedding of c_avl_get on a strcmp-keyed tree: the stored value for the
key, or none when the lookup misses (the C function returns non-zero). -/
def c_avl_get {α : Type} (tree : List (String × α)) (key : String) :
    Option α :=
  match tree with
  | [] => none
  | (k, v) :: rest => if k = key then some v else c_avl_get rest key

/-- Modelled from the spec: threshold_t is declared in utils_threshold.h,
which is not among the sources; per the spec a threshold record carries the
four match fields, alerting-bounds configuration (collapsed into one Int
payload, which the code never inspects here), and the internal next-linkage
pointer that ut_search_threshold clears on its copy. -/
structure threshold_t where
  host : String
  plugin : String
  type_ : String
  data_source : String
  payload : Int
  next : Option Nat
deriving Repr, DecidableEq

abbrev threshold_tree_t := List (String × threshold_t)

/-- A NULL string argument of threshold_get is printed by the %s format as
the empty string. -/
def orEmptyStr : Option String → String
  | none => ""
  | some s => s

/-- Embedding of threshold_get: build the composite name
host/plugin/type/data_source with NULL arguments rendered as empty strings,
and look it up in the registry tree. -/
def threshold_get (tree : threshold_tree_t)
    (hostname plugin type_ data_source : Option String) :
    Option threshold_t :=
  c_avl_get tree
    (orEmptyStr hostname ++ "/" ++ orEmptyStr plugin ++ "/" ++
      orEmptyStr type_ ++ "/" ++ orEmptyStr data_source)

/-- Identity structure: a name plus the label store root (an AVL tree of
string keys and string values). -/
structure identity_t where
  name : String
  root_p : List (String × String)
deriving Repr, DecidableEq

/-- The DS_TYPE_* data-source kinds. -/
inductive ds_kind : Type
  | gauge
  | counter
  | derive
  | absolute
deriving Repr, DecidableEq

/-- The value_t union; the gauge member is a double in C, modelled here by
the integer numerals the tests use (no claim computes with values). -/
inductive value_t : Type
  | gauge (x : Int)
  | counter (x : Nat)
  | derive (x : Int)
  | absolute (x : Nat)
deriving Repr, DecidableEq

/-- The metric structure: the union of the fields used by utils_threshold.c
(identity, plugin, type, data-source name) and by the metric tests (value,
value_ds_type, time, interval).  plugin and type are char pointers that may
be NULL; ds_name comes from a char array inside the data-source descriptor
and is always a string. -/
structure metric_t where
  value : value_t
  value_ds_type : ds_kind
  type_ : Option String
  ds_name : String
  time : Nat
  interval : Nat
  plugin : Option String
  identity : identity_t
deriving Repr, DecidableEq

/-- Embedding of threshold_search: a NULL metric returns NULL; the host is
read from the identity label "__host__" (miss returns NULL); then the fixed
cascade of eight threshold_get probes runs, first hit wins. -/
def threshold_search (tree : threshold_tree_t) (metric_p : Option metric_t) :
    Option threshold_t :=
  match metric_p with
  | none => none
  | some m =>
    match c_avl_get m.identity.root_p "__host__" with
    | none => none
    | some host_p =>
      (threshold_get tree (some host_p) m.plugin m.type_
          (some m.ds_name)).orElse fun _ =>
      (threshold_get tree (some host_p) m.plugin m.type_ none).orElse fun _ =>
      (threshold_get tree (some host_p) (some "") m.type_
          (some m.ds_name)).orElse fun _ =>
      (threshold_get tree (some host_p) (some "") m.type_ none).orElse fun _ =>
      (threshold_get tree (some "") m.plugin m.type_
          (some m.ds_name)).orElse fun _ =>
      (threshold_get tree (some "") m.plugin m.type_ none).orElse fun _ =>
      (threshold_get tree (some "") (some "") m.type_
          (some m.ds_name)).orElse fun _ =>
      threshold_get tree (some "") (some "") m.type_ none

/-- The 8-probe cascade order stated by the spec, as (host, plugin, type,
data_source) argument quadruples for threshold_get. -/
def cascade_probes (host : String) (m : metric_t) :
    List (Option String × Option String × Option String × Option String) :=
  [ (some host, m.plugin, m.type_, some m.ds_name),
    (some host, m.plugin, m.type_, none),
    (some host, some "", m.type_, some m.ds_name),
    (some host, some "", m.type_, none),
    (some "", m.plugin, m.type_, some m.ds_name),
    (some "", m.plugin, m.type_, none),
    (some "", some "", m.type_, some m.ds_name),
    (some "", some "", m.type_, none) ]

def EINVAL : Int := 22

def ENOENT : Int := 2

/-- Embedding of ut_search_threshold: the Int is the returned error code,
the Option threshold_t the value written through ret_threshold, and the
Bool records whether threshold_lock was taken. -/
def ut_search_threshold (tree : threshold_tree_t)
    (metric_p : Option metric_t) : Int × Option threshold_t × Bool :=
  match metric_p with
  | none => (EINVAL, none, false)
  | some m =>
    match threshold_search tree (some m) with
    | none => (ENOENT, none, true)
    | some t => (0, some { t with next := none }, true)

/-- The literal composite key host/plugin/type/data_source the registry is
keyed by; empty segments stay in place as empty strings. -/
def mkThresholdKey (h p t d : String) : String :=
  h ++ "/" ++ p ++ "/" ++ t ++ "/" ++ d

/-! ### Converter and write queue

plugin_convert_values_to_metrics, plugin_dispatch_values and
plugin_write_dequeue live in src/daemon/plugin.c, which is not among the
sources; they are modelled from the spec (paragraphs 4.3 and 4.4) and from
the behavior their tests in metrics_list_test.c assert. -/

/-- An input sample (value_list_t): host, plugin, type, the ordered values,
and the timestamp and interval. -/
structure value_list_t where
  values : List value_t
  time : Nat
  interval : Nat
  host : String
  plugin : String
  type_ : String
deriving Repr, DecidableEq

/-- A type-database entry: the ordered (data_source_name, kind) pairs of
one type, as read from types.db. -/
abbrev data_set_t := List (String × ds_kind)

/-- The type database: type name to its data-set schema. -/
abbrev data_sets_t := List (String × data_set_t)

/-- Converter failure kinds from the spec. -/
inductive conv_error : Type
  | SchemaNotFound
  | ValueCountMismatch
deriving Repr, DecidableEq

/-- Modelled from the spec: the identity name the converter builds, with
the data-source suffix only when the schema has more than one slot. -/
def convert_metric_name (plugin type_ : String) (multi : Bool)
    (dsn : String) : String :=
  if multi then plugin ++ "/" ++ type_ ++ "/" ++ dsn
  else plugin ++ "/" ++ type_

/-- Modelled from the spec: the Metric built for slot i of the sample.  The
converter sets the label "_host" to the sample's host (this is the key the
convert test reads back), copies time, interval and type, and pairs the
metric with a fresh identity named by convert_metric_name. -/
def convert_one (vl : value_list_t) (multi : Bool) (spec : String × ds_kind)
    (v : value_t) : metric_t :=
  { value := v
    value_ds_type := spec.2
    type_ := some vl.type_
    ds_name := spec.1
    time := vl.time
    interval := vl.interval
    plugin := some vl.plugin
    identity :=
      { name := convert_metric_name vl.plugin vl.type_ multi spec.1
        root_p := [("_host", vl.host)] } }

/-- Modelled from the spec: plugin_convert_values_to_metrics is not among
the sources; per paragraph 4.3 it looks the sample's type up in the type
database (SchemaNotFound on a miss), requires the value count to match the
schema (ValueCountMismatch otherwise), and produces one Metric per slot, in
schema order, with no partial list on failure. -/
def plugin_convert_values_to_metrics (data_sets : data_sets_t)
    (vl : value_list_t) : Except conv_error (List metric_t) :=
  match c_avl_get data_sets vl.type_ with
  | none => Except.error conv_error.SchemaNotFound
  | some ds =>
    if ds.length = vl.values.length then
      Except.ok (List.zipWith (convert_one vl (decide (1 < ds.length))) ds
        vl.values)
    else Except.error conv_error.ValueCountMismatch

/-- The write queue: a FIFO of metrics, head dequeued first. -/
abbrev write_queue := List metric_t

/-- Modelled from the spec: plugin_dispatch_values is not among the
sources; per paragraph 4.4 it runs the converter and enqueues every
resulting metric at the tail, in order, enqueueing nothing on failure. -/
def plugin_dispatch_values (data_sets : data_sets_t) (q : write_queue)
    (vl : value_list_t) : Except conv_error write_queue :=
  match plugin_convert_values_to_metrics data_sets vl with
  | Except.error e => Except.error e
  | Except.ok ms => Except.ok (q ++ ms)

/-- Modelled from the spec: plugin_write_dequeue is not among the sources;
it removes and returns the head of the queue, and signals an empty queue
(the blocking and end-of-stream behavior is outside this model). -/
def plugin_write_dequeue (q : write_queue) :
    Option (metric_t × write_queue) :=
  match q with
  | [] => none
  | m :: rest => some (m, rest)

/-! ### Concrete fixtures from the convert test -/

/-- The type database holding the if_octets schema of the convert test. -/
def db_if_octets : data_sets_t :=
  [("if_octets", [("rx", ds_kind.derive), ("tx", ds_kind.derive)])]

/-- The first convert test case: a 2-value interface/if_octets sample from
example.com. -/
def vl_if_octets : value_list_t :=
  { values := [value_t.derive 120, value_t.derive 19]
    time := 1480063672
    interval := 10
    host := "example.com"
    plugin := "interface"
    type_ := "if_octets" }

/-- The metric the converter builds for the rx slot of vl_if_octets. -/
def metric_rx : metric_t :=
  convert_one vl_if_octets true ("rx", ds_kind.derive) (value_t.derive 120)

/-- The metric the converter builds for the tx slot of vl_if_octets. -/
def metric_tx : metric_t :=
  convert_one vl_if_octets true ("tx", ds_kind.derive) (value_t.derive 19)

/-- A registry fixture: the exact-match record for the rx metric of the
convert test, stored under its fully concrete composite key. -/
def th_rx : threshold_t :=
  { host := "example.com", plugin := "interface", type_ := "if_octets",
    data_source := "rx", payload := 7, next := some 3 }

/-- A registry holding th_rx under the literal key
example.com/interface/if_octets/rx. -/
def tree_rx : threshold_tree_t :=
  [(mkThresholdKey "example.com" "interface" "if_octets" "rx", th_rx)]

/-- A metric shaped like the ones threshold_search is documented for: the
rx metric fields with the host recorded under the sentinel identity label
the search reads, "__host__". -/
def metric_host_rx : metric_t :=
  { value := value_t.derive 120
    value_ds_type := ds_kind.derive
    type_ := some "if_octets"
    ds_name := "rx"
    time := 1480063672
    interval := 10
    plugin := some "interface"
    identity :=
      { name := "interface/if_octets/rx"
        root_p := [("__host__", "example.com")] } }

end Collectd

namespace Collectd

/-- Helper used by the claim theorems below: the walk with a present value
always succeeds and returns 0. -/
theorem add_label_walk_some (key v : String) :
    ∀ s : List tmp_list_node,
      ∃ s2, add_label_walk key (some v) s = some (0, s2) := by
  intro s
  induction s with
  | nil => exact ⟨_, rfl⟩
  | cons n rest ih =>
    by_cases hk : n.key_p = key
    · cases hv : n.value_p with
      | none =>
        exact ⟨{ n with value_p := some v } :: rest,
          by simp [add_label_walk, hk, hv]⟩
      | some w => exact ⟨n :: rest, by simp [add_label_walk, hk, hv]⟩
    · obtain ⟨s2, hs2⟩ := ih
      exact ⟨n :: s2, by simp [add_label_walk, hk, hs2]⟩

/-- C3: inserting a new key into the EMPTY store is a no-op in the code
(list_head_p->next_p is assigned the still-NULL node_p), contradicting the
claim that a new key is appended even when the store is empty: here
insert("key1","value1") on the empty store returns success yet leaves the
store empty. -/
theorem add_label_empty_store_noop :
    add_label (some "key1") (some "value1") [] = some (0, []) := rfl

/-- C4 counterexample: insert fails (returns 1) on a NULL key although the
model has no allocation exhaustion at all, and the result code does not
report whether the store changed: a duplicate insert that leaves the store
unchanged and a fresh insert that appends a node both return 0. -/
theorem add_label_not_only_oom :
    add_label none (some "v") [] = some (1, []) ∧
    add_label (some "a") (some "y") [{ key_p := "a", value_p := some "x" }] =
      some (0, [{ key_p := "a", value_p := some "x" }]) ∧
    add_label (some "b") (some "y") [{ key_p := "a", value_p := some "x" }] =
      some (0, [{ key_p := "a", value_p := some "x" },
                { key_p := "b", value_p := some "y" }]) := by
  refine ⟨rfl, ?_, ?_⟩ <;> decide

/-- C4 amended: with allocation modelled as always succeeding, insert with a
non-absent value fails exactly on a NULL key, where it returns 1 and leaves
the store untouched; on any non-NULL key it returns 0 (success), a code that
does not say whether the store changed. -/
theorem add_label_return_code (k v : String) (s : List tmp_list_node) :
    Option.map Prod.fst (add_label (some k) (some v) s) = some 0 ∧
    add_label none (some v) s = some (1, s) := by
  constructor
  · cases s with
    | nil => rfl
    | cons n rest =>
      obtain ⟨s2, hs2⟩ := add_label_walk_some k v (n :: rest)
      simp [add_label, hs2]
  · rfl

/-- Helper: findSome? over a cons is the head result or else the tail
scan. -/
theorem list_findSome_cons {α β : Type} (f : α → Option β) (a : α)
    (l : List α) :
    List.findSome? f (a :: l) = (f a).orElse fun _ => List.findSome? f l := by
  cases h : f a <;> simp [List.findSome?, h, Option.orElse]

/-- Helper: orElse with a none fallback is the identity. -/
theorem opt_orElse_none {α : Type} (o : Option α) :
    (o.orElse fun _ => none) = o := by
  cases o <;> rfl

/-- C1: for a metric whose identity carries the "__host__" label,
threshold_search equals the first hit of the fixed eight-probe cascade, in
the cascade order, and is NotFound (none) when all eight probes miss. -/
theorem threshold_search_cascade (tree : threshold_tree_t) (m : metric_t)
    (host : String)
    (hh : c_avl_get m.identity.root_p "__host__" = some host) :
    threshold_search tree (some m) =
      List.findSome?
        (fun q => threshold_get tree q.1 q.2.1 q.2.2.1 q.2.2.2)
        (cascade_probes host m) := by
  have hnil :
      List.findSome?
        (fun q => threshold_get tree q.1 q.2.1 q.2.2.1 q.2.2.2)
        ([] : List (Option String × Option String × Option String ×
          Option String)) = none := rfl
  simp only [cascade_probes, list_findSome_cons, hnil, opt_orElse_none]
  simp [threshold_search, hh]

/-- C1 witness: the cascade equation at a concrete metric carrying
"__host__" = example.com over the one-record registry tree_rx. -/
theorem threshold_search_cascade_w :
    threshold_search tree_rx (some metric_host_rx) =
      List.findSome?
        (fun q => threshold_get tree_rx q.1 q.2.1 q.2.2.1 q.2.2.2)
        (cascade_probes "example.com" metric_host_rx) :=
  threshold_search_cascade tree_rx metric_host_rx "example.com" (by decide)

/-- C7: a metric whose identity label store has no "__host__" key makes
threshold_search return none, for every registry tree, so the registry is
never probed. -/
theorem threshold_search_no_host (tree : threshold_tree_t) (m : metric_t)
    (hh : c_avl_get m.identity.root_p "__host__" = none) :
    threshold_search tree (some m) = none := by
  simp [threshold_search, hh]

/-- C7 witness: the converter-shaped rx metric carries only "_host", so the
search misses on the nonempty registry tree_rx. -/
theorem threshold_search_no_host_w :
    threshold_search tree_rx (some metric_rx) = none :=
  threshold_search_no_host tree_rx metric_rx (by decide)

/-- C5: ut_search_threshold returns EINVAL without taking the lock on a
NULL metric, ENOENT (lock taken) when the cascade search misses, and on a
hit the stored record as a value copy with its next linkage cleared (lock
taken). -/
theorem ut_search_threshold_spec (tree : threshold_tree_t)
    (mp : Option metric_t) :
    (mp = none → ut_search_threshold tree mp = (EINVAL, none, false)) ∧
    (mp ≠ none → threshold_search tree mp = none →
      ut_search_threshold tree mp = (ENOENT, none, true)) ∧
    (∀ t, threshold_search tree mp = some t →
      ut_search_threshold tree mp = (0, some { t with next := none }, true)) := by
  refine ⟨?_, ?_, ?_⟩
  · rintro rfl; rfl
  · intro hne hs
    cases mp with
    | none => exact absurd rfl hne
    | some m => simp [ut_search_threshold, hs]
  · intro t hs
    cases mp with
    | none => simp [threshold_search] at hs
    | some m => simp [ut_search_threshold, hs]

/-- C5 witness: on tree_rx and the concrete "__host__" metric the search
hits th_rx, and ut_search_threshold returns code 0, the record copy with
next cleared, with the lock taken. -/
theorem ut_search_threshold_spec_w :
    ut_search_threshold tree_rx (some metric_host_rx) =
      (0, some { th_rx with next := none }, true) :=
  (ut_search_threshold_spec tree_rx (some metric_host_rx)).2.2 th_rx
    (by decide)

/-- Helper: c_avl_get finds the stored value of a present key when the
tree's keys are unique. -/
theorem c_avl_get_of_mem {α : Type} (tree : List (String × α))
    (hnd : (tree.map Prod.fst).Nodup) (k : String) (v : α)
    (hm : (k, v) ∈ tree) : c_avl_get tree k = some v := by
  induction tree with
  | nil => simp at hm
  | cons kv rest ih =>
    obtain ⟨k0, v0⟩ := kv
    simp only [List.map_cons, List.nodup_cons] at hnd
    rcases List.mem_cons.mp hm with hEq | hTail
    · obtain ⟨hk, hv⟩ := Prod.mk.injEq .. ▸ hEq
      simp [c_avl_get, hk.symm, hv]
    · have hk0 : k0 ≠ k := by
        intro hkk
        exact hnd.1 (hkk ▸ (List.mem_map.mpr ⟨(k, v), hTail, rfl⟩))
      simp [c_avl_get, hk0, ih hnd.2 hTail]

/-- Helper: c_avl_get misses every key not present in the tree. -/
theorem c_avl_get_not_mem {α : Type} (tree : List (String × α)) (k : String)
    (hk : k ∉ tree.map Prod.fst) : c_avl_get tree k = none := by
  induction tree with
  | nil => rfl
  | cons kv rest ih =>
    obtain ⟨k0, v0⟩ := kv
    simp only [List.map_cons, List.mem_cons] at hk
    push_neg at hk
    simp [c_avl_get, Ne.symm hk.1, ih hk.2]

/-- C6: threshold_get on four concrete strings looks up the literal
composite key host/plugin/type/data_source (empty segments kept as empty
strings) and, on a uniquely keyed registry, returns exactly the record
stored under that key, or none when the key is absent. -/
theorem threshold_get_exact (tree : threshold_tree_t)
    (hnd : (tree.map Prod.fst).Nodup) (h p t d : String) :
    threshold_get tree (some h) (some p) (some t) (some d) =
      c_avl_get tree (mkThresholdKey h p t d) ∧
    (∀ th, (mkThresholdKey h p t d, th) ∈ tree →
      threshold_get tree (some h) (some p) (some t) (some d) = some th) ∧
    (mkThresholdKey h p t d ∉ tree.map Prod.fst →
      threshold_get tree (some h) (some p) (some t) (some d) = none) :=
  ⟨rfl,
   fun th hm => c_avl_get_of_mem tree hnd _ th hm,
   fun hk => c_avl_get_not_mem tree _ hk⟩

/-- C6 witness: the exact lookup of th_rx under its literal key in the
uniquely keyed registry tree_rx. -/
theorem threshold_get_exact_w :
    threshold_get tree_rx (some "example.com") (some "interface")
      (some "if_octets") (some "rx") = some th_rx :=
  (threshold_get_exact tree_rx (by decide) "example.com" "interface"
    "if_octets" "rx").2.1 th_rx (by decide)

/-- C10: threshold_get treats a NULL argument exactly like the
empty-string wildcard, in each of the four argument positions. -/
theorem threshold_get_null_wildcard (tree : threshold_tree_t)
    (h p t d : Option String) :
    threshold_get tree none p t d = threshold_get tree (some "") p t d ∧
    threshold_get tree h none t d = threshold_get tree h (some "") t d ∧
    threshold_get tree h p none d = threshold_get tree h p (some "") d ∧
    threshold_get tree h p t none = threshold_get tree h p t (some "") :=
  ⟨rfl, rfl, rfl, rfl⟩

/-- C2: the converter writes the host under "_host" while threshold_search
reads "__host__": on the convert test sample the produced rx metric holds
"_host" = example.com, has no "__host__" label, and the search misses even
though the registry stores a record under the fully concrete key
example.com/interface/if_octets/rx. -/
theorem converter_host_label_mismatch :
    plugin_convert_values_to_metrics db_if_octets vl_if_octets =
      Except.ok [metric_rx, metric_tx] ∧
    c_avl_get metric_rx.identity.root_p "_host" = some "example.com" ∧
    c_avl_get metric_rx.identity.root_p "__host__" = none ∧
    c_avl_get tree_rx
      (mkThresholdKey "example.com" "interface" "if_octets" "rx") =
      some th_rx ∧
    threshold_search tree_rx (some metric_rx) = none :=
  ⟨rfl, rfl, rfl, rfl, rfl⟩

/-- Helper: mapping over a zipWith of equally long lists whose image only
depends on the left component is mapping over the left list. -/
theorem map_zipWith_left {α β γ δ : Type} (f : α → β → γ) (g : γ → δ)
    (gl : α → δ) (hg : ∀ a b, g (f a b) = gl a) :
    ∀ (l1 : List α) (l2 : List β), l1.length = l2.length →
      (List.zipWith f l1 l2).map g = l1.map gl := by
  intro l1
  induction l1 with
  | nil => intro l2 _; simp
  | cons a l ih =>
    intro l2 hlen
    cases l2 with
    | nil => simp at hlen
    | cons b l2 => simp [hg, ih l2 (by simpa using hlen)]

/-- C8: converting the 2-value interface/if_octets sample yields exactly
the rx and tx metrics, in schema order, named interface/if_octets/rx and
interface/if_octets/tx, each holding the host label equal to the sample's
host and the sample's timestamp and interval verbatim; and in general a
successful conversion names metric i plugin/type/ds_name[i] when the schema
has more than one data source, else plugin/type. -/
theorem convert_if_octets :
    (plugin_convert_values_to_metrics db_if_octets vl_if_octets =
        Except.ok [metric_rx, metric_tx] ∧
      metric_rx.identity.name = "interface/if_octets/rx" ∧
      metric_tx.identity.name = "interface/if_octets/tx" ∧
      c_avl_get metric_rx.identity.root_p "_host" = some vl_if_octets.host ∧
      c_avl_get metric_tx.identity.root_p "_host" = some vl_if_octets.host ∧
      metric_rx.time = vl_if_octets.time ∧
      metric_rx.interval = vl_if_octets.interval ∧
      metric_tx.time = vl_if_octets.time ∧
      metric_tx.interval = vl_if_octets.interval) ∧
    ∀ (db : data_sets_t) (vl : value_list_t) (sch : data_set_t)
      (ms : List metric_t),
      c_avl_get db vl.type_ = some sch →
      plugin_convert_values_to_metrics db vl = Except.ok ms →
      ms.map (fun m => m.identity.name) =
        sch.map (fun s =>
          if 1 < sch.length then
            vl.plugin ++ "/" ++ vl.type_ ++ "/" ++ s.1
          else vl.plugin ++ "/" ++ vl.type_) := by
  constructor
  · exact ⟨rfl, rfl, rfl, rfl, rfl, rfl, rfl, rfl, rfl⟩
  · intro db vl sch ms hsch hok
    simp only [plugin_convert_values_to_metrics, hsch] at hok
    by_cases hlen : sch.length = vl.values.length
    · rw [if_pos hlen] at hok
      have hms : List.zipWith (convert_one vl (decide (1 < sch.length))) sch
          vl.values = ms := by
        injection hok
      rw [← hms]
      exact map_zipWith_left _ _ _
        (fun a b => by
          simp [convert_one, convert_metric_name]) sch vl.values hlen
    · rw [if_neg hlen] at hok
      simp at hok

/-- C8 witness: the general naming rule applied at the concrete if_octets
conversion, giving the two expected identity names. -/
theorem convert_if_octets_w :
    List.map (fun m => m.identity.name) [metric_rx, metric_tx] =
      List.map (fun s =>
          if 1 < ([("rx", ds_kind.derive), ("tx", ds_kind.derive)] :
              data_set_t).length then
            vl_if_octets.plugin ++ "/" ++ vl_if_octets.type_ ++ "/" ++ s.1
          else vl_if_octets.plugin ++ "/" ++ vl_if_octets.type_)
        ([("rx", ds_kind.derive), ("tx", ds_kind.derive)] : data_set_t) :=
  convert_if_octets.2 db_if_octets vl_if_octets
    [("rx", ds_kind.derive), ("tx", ds_kind.derive)]
    [metric_rx, metric_tx] rfl convert_if_octets.1.1

/-- C9: a dispatch on the empty queue followed by one dequeue returns a
metric with the dispatched sample's timestamp and interval whose identity
holds the sample's host label; dispatch appends the converted metrics at
the tail in order, and dequeue removes the head, so metrics leave in FIFO
order of enqueueing. -/
theorem queue_fifo :
    (∀ (db : data_sets_t) (vl : value_list_t) (q1 : write_queue)
        (m : metric_t) (rest : write_queue),
        plugin_dispatch_values db [] vl = Except.ok q1 →
        plugin_write_dequeue q1 = some (m, rest) →
        m.time = vl.time ∧ m.interval = vl.interval ∧
          m.identity.root_p = [("_host", vl.host)]) ∧
    (∀ (db : data_sets_t) (q : write_queue) (vl : value_list_t)
        (ms : List metric_t),
        plugin_convert_values_to_metrics db vl = Except.ok ms →
        plugin_dispatch_values db q vl = Except.ok (q ++ ms)) ∧
    (∀ (m : metric_t) (q : write_queue),
        plugin_write_dequeue (m :: q) = some (m, q)) := by
  refine ⟨?_, ?_, ?_⟩
  · intro db vl q1 m rest hd hq
    unfold plugin_dispatch_values at hd
    cases hc : plugin_convert_values_to_metrics db vl with
    | error e => rw [hc] at hd; simp at hd
    | ok ms =>
      rw [hc] at hd
      have hq1 : ms = q1 := by simpa using hd
      subst hq1
      cases hsch : c_avl_get db vl.type_ with
      | none =>
        simp only [plugin_convert_values_to_metrics, hsch] at hc
        exact absurd hc (by simp)
      | some sch =>
        simp only [plugin_convert_values_to_metrics, hsch] at hc
        by_cases hlen : sch.length = vl.values.length
        · rw [if_pos hlen] at hc
          have hzip : List.zipWith (convert_one vl (decide (1 < sch.length)))
              sch vl.values = ms := by
            injection hc
          cases sch with
          | nil => rw [← hzip] at hq; simp [plugin_write_dequeue] at hq
          | cons s sch2 =>
            cases hvals : vl.values with
            | nil => rw [hvals] at hlen; simp at hlen
            | cons v vs =>
              rw [hvals] at hzip
              rw [← hzip] at hq
              simp only [List.zipWith, plugin_write_dequeue] at hq
              have hm : convert_one vl (decide (1 < (s :: sch2).length)) s v
                  = m := by
                have := congrArg Prod.fst (Option.some.inj hq)
                simpa using this
              rw [← hm]
              exact ⟨rfl, rfl, rfl⟩
        · rw [if_neg hlen] at hc; simp at hc
  · intro db q vl ms hc
    unfold plugin_dispatch_values
    rw [hc]
  · intro m q
    rfl

/-- C9 witness: dispatching the if_octets sample on the empty queue and
dequeueing once yields the rx metric, which carries the sample's timestamp,
interval and host label. -/
theorem queue_fifo_w :
    metric_rx.time = vl_if_octets.time ∧
    metric_rx.interval = vl_if_octets.interval ∧
    metric_rx.identity.root_p = [("_host", vl_if_octets.host)] :=
  queue_fifo.1 db_if_octets vl_if_octets [metric_rx, metric_tx] metric_rx
    [metric_tx] rfl rfl

end Collectd
